import Mathlib

/-
Shallow embedding of the HR application's leave-management page and
attendance page (client-side business logic), together with proofs that
the derivation-layer functions satisfy their specified contracts.

Modelling conventions:
  * A calendar date is a natural number: the number of days since
    1970-01-01 (a Thursday).  The JavaScript `Date.getDay()` of day `d`
    is therefore `(d + 4) % 7`, with 0 = Sunday and 6 = Saturday.
  * A timestamp is a natural number of milliseconds since the epoch;
    `msPerDay = 86400000`.
  * Optional/nullable values are `Option`; JavaScript truthiness tests on
    nullable objects and strings become `Option.isSome` tests.
  * React-query mutations are modelled by the request value they send
    (`mutationFn`) and by the pure effect description of their error
    handlers (`onError`).
-/

namespace HR

/-- Employee record from the directory (`User` in `@shared/schema`). -/
structure User where
  id : Nat
  firstName : String
  lastName : String
  role : String
deriving Repr, DecidableEq

/-- A leave request (`LeaveRequest` in `@shared/schema`).  `startDate` and
`endDate` are day numbers. -/
structure LeaveRequest where
  id : Nat
  userId : Nat
  type : String
  startDate : Nat
  endDate : Nat
  status : String
  reason : Option String
  approvedById : Option Nat
deriving Repr, DecidableEq

/-- An attendance record (`Attendance` in `@shared/schema`).  `date`,
`checkInTime` and `checkOutTime` are millisecond timestamps when present. -/
structure Attendance where
  id : Nat
  userId : Nat
  date : Option Nat
  checkInTime : Option Nat
  checkOutTime : Option Nat
  status : String
  notes : Option String
deriving Repr, DecidableEq

/-- Result of `calculateLeaveBalance`: `remaining` is a JavaScript number
subtraction and may go negative, hence `Int`. -/
structure LeaveBalance where
  total : Nat
  used : Nat
  remaining : Int
deriving Repr, DecidableEq

/-- Milliseconds in one day. -/
def msPerDay : Nat := 86400000

/-- date-fns `isWeekend`: Sunday (`getDay = 0`) or Saturday (`getDay = 6`). -/
def isWeekend (day : Nat) : Bool :=
  (day + 4) % 7 == 0 || (day + 4) % 7 == 6

/-- date-fns `eachDayOfInterval` on a well-formed interval: every day of the
inclusive range `[start, end]`.  On a reversed interval (end before start)
date-fns's behavior is version-dependent — v2 throws a `RangeError`, v3+
iterates the reversed range — so this model is faithful only for
`startDate ≤ endDate`.  `calculateDuration` reproduces the source's
`end < start` guard and therefore only reaches this function on the faithful
domain; `calculateLeaveBalance` has no such guard in the source, so theorems
about it carry an explicit `startDate ≤ endDate` hypothesis on the requests
they quantify over. -/
def eachDayOfInterval (startDate endDate : Nat) : List Nat :=
  (List.range (endDate + 1 - startDate)).map (fun i => startDate + i)

/-- The `allDays.filter(day => !isWeekend(day)).length` idiom used by both
`calculateDuration` and `calculateLeaveBalance`. -/
def businessDaysLength (startDate endDate : Nat) : Nat :=
  ((eachDayOfInterval startDate endDate).filter (fun day => !(isWeekend day))).length

/-- `calculateDuration` from the leave page (lines 139–153): business-day
duration of a date range, rendered as a string. -/
def calculateDuration (startDate endDate : Nat) : String :=
  if endDate < startDate then "0 days"
  else
    let diffDays := businessDaysLength startDate endDate
    toString diffDays ++ " working day" ++ (if diffDays != 1 then "s" else "")

/-- `calculateLeaveBalance` from the leave page (lines 322–357), as a function
of the current user's leave requests and the leave type.  The `switch` on the
type becomes a chain of conditionals. -/
def calculateLeaveBalance (myLeaveRequests : List LeaveRequest) (type : String) :
    LeaveBalance :=
  let annual : Nat := 20
  let sick : Nat := 10
  let personal : Nat := 5
  let halfday : Nat := 12
  let used : Nat :=
    (myLeaveRequests.filter
        (fun request => request.status == "approved" && request.type == type)).foldl
      (fun total request =>
        if type == "halfday" then total + 1
        else total + businessDaysLength request.startDate request.endDate)
      0
  if type == "annual" then ⟨annual, used, (annual : Int) - (used : Int)⟩
  else if type == "sick" then ⟨sick, used, (sick : Int) - (used : Int)⟩
  else if type == "personal" then ⟨personal, used, (personal : Int) - (used : Int)⟩
  else if type == "halfday" then ⟨halfday, used, (halfday : Int) - (used : Int)⟩
  else ⟨0, 0, 0⟩

/-- Body of a `PUT /api/leave-requests/{id}` request. -/
structure LeaveStatusUpdate where
  status : String
  approvedById : Option Nat
deriving Repr, DecidableEq

/-- An API request issued by the leave page's mutations. -/
inductive LeaveApiCall where
  | putLeaveRequest (path : String) (body : LeaveStatusUpdate)
  | deleteLeaveRequest (path : String)
deriving Repr, DecidableEq

/-- `approveMutation.mutationFn` (leave page lines 57–63): PUT the request id
with status `approved` and `approvedById = user?.id`. -/
def approveMutationFn (user : Option User) (requestId : Nat) : LeaveApiCall :=
  .putLeaveRequest ("/api/leave-requests/" ++ toString requestId)
    ⟨"approved", user.map User.id⟩

/-- `rejectMutation.mutationFn` (leave page lines 81–87): PUT the request id
with status `rejected` and `approvedById = user?.id`. -/
def rejectMutationFn (user : Option User) (requestId : Nat) : LeaveApiCall :=
  .putLeaveRequest ("/api/leave-requests/" ++ toString requestId)
    ⟨"rejected", user.map User.id⟩

/-- `cancelMutation.mutationFn` (leave page lines 105–108): DELETE the
request. -/
def cancelMutationFn (requestId : Nat) : LeaveApiCall :=
  .deleteLeaveRequest ("/api/leave-requests/" ++ toString requestId)

/-- A control rendered in the actions cell of the "My Requests" table. -/
inductive LeaveRowAction where
  | editButton
  | cancelButton (confirmAction : LeaveApiCall)
deriving Repr, DecidableEq

/-- Actions cell of `myLeaveColumns` (leave page lines 201–254): edit and
cancel controls are rendered only when the row's status is `pending`; the
cancel control's confirmed action runs `cancelMutation` on the row's id. -/
def myLeaveActionsCell (row : LeaveRequest) : List LeaveRowAction :=
  if row.status == "pending" then
    [.editButton, .cancelButton (cancelMutationFn row.id)]
  else []

/-- Gate on the "Pending Approvals" `TabsTrigger` (leave page line 388):
`user?.role === 'admin' || user?.role === 'hr' || user?.role === 'manager'`. -/
def showPendingApprovalsTrigger (user : Option User) : Bool :=
  user.map User.role == some "admin" || user.map User.role == some "hr" ||
    user.map User.role == some "manager"

/-- Gate on the "pending-approvals" `TabsContent` holding the table with the
Approve/Reject buttons (leave page line 511): the identical role condition. -/
def showPendingApprovalsContent (user : Option User) : Bool :=
  user.map User.role == some "admin" || user.map User.role == some "hr" ||
    user.map User.role == some "manager"

/-- A toast notification `{title, description, variant}`. -/
structure Toast where
  title : String
  description : String
  variant : Option String
deriving Repr, DecidableEq

/-- Pure description of what a mutation's `onError` handler does: which query
keys it invalidates, whether it retries the mutation, and which toasts it
shows. -/
structure ErrorHandlerEffects where
  invalidatedQueryKeys : List String
  retried : Bool
  toasts : List Toast
deriving Repr, DecidableEq

/-- `approveMutation.onError` (leave page lines 71–77): a destructive toast
embedding the error message; no invalidation, no retry. -/
def approveOnError (errorMessage : String) : ErrorHandlerEffects :=
  ⟨[], false,
   [⟨"Error", "Failed to approve request: " ++ errorMessage, some "destructive"⟩]⟩

/-- `rejectMutation.onError` (leave page lines 95–101). -/
def rejectOnError (errorMessage : String) : ErrorHandlerEffects :=
  ⟨[], false,
   [⟨"Error", "Failed to reject request: " ++ errorMessage, some "destructive"⟩]⟩

/-- `cancelMutation.onError` (leave page lines 116–122). -/
def cancelOnError (errorMessage : String) : ErrorHandlerEffects :=
  ⟨[], false,
   [⟨"Error", "Failed to cancel request: " ++ errorMessage, some "destructive"⟩]⟩

/-- `updateAttendanceMutation.onError` (attendance page lines 102–108): the
toast description is the fixed string "Failed to update attendance record";
the handler ignores the error value entirely. -/
def updateAttendanceOnError (_errorMessage : String) : ErrorHandlerEffects :=
  ⟨[], false,
   [⟨"Error", "Failed to update attendance record", some "destructive"⟩]⟩

/-- `isEmployeeOnLeave` from the attendance page (lines 118–135): the request's
start is set to 00:00:00.000, its end to 23:59:59.999, and the queried date is
compared at 12:00 noon. -/
def isEmployeeOnLeave (allLeaveRequests : List LeaveRequest) (employeeId : Nat)
    (date : Nat) : Bool :=
  allLeaveRequests.any fun request =>
    if request.userId != employeeId || request.status != "approved" then false
    else
      let requestStartMs := request.startDate * msPerDay
      let requestEndMs := request.endDate * msPerDay + (msPerDay - 1)
      let checkMs := date * msPerDay + 43200000
      decide (requestStartMs ≤ checkMs) && decide (checkMs ≤ requestEndMs)

/-- A row of the combined per-employee attendance view built by
`allEmployeeAttendanceData`. -/
structure AttendanceRow where
  id : Nat
  userId : Nat
  employeeName : String
  checkInTime : Option Nat
  checkOutTime : Option Nat
  date : Nat
  status : String
  notes : Option String
deriving Repr, DecidableEq

/-- Body of the `employees.map` in `allEmployeeAttendanceData` (attendance page
lines 138–165).  The JavaScript truthiness test
`attendanceRecord && attendanceRecord.checkInTime` becomes an `isSome` test on
the bind of the two options, and each `x || fallback` becomes `getD`. -/
def employeeAttendanceRow (dateAttendance : List Attendance)
    (allLeaveRequests : List LeaveRequest) (selectedDate : Nat)
    (employee : User) : AttendanceRow :=
  let attendanceRecord := dateAttendance.find? fun record => record.userId == employee.id
  let onLeave := isEmployeeOnLeave allLeaveRequests employee.id selectedDate
  let status : String :=
    if (attendanceRecord.bind Attendance.checkInTime).isSome then "present"
    else if onLeave then "on leave"
    else "absent"
  ⟨(attendanceRecord.map Attendance.id).getD 0,
   employee.id,
   employee.firstName ++ " " ++ employee.lastName,
   attendanceRecord.bind Attendance.checkInTime,
   attendanceRecord.bind Attendance.checkOutTime,
   (attendanceRecord.bind Attendance.date).getD (selectedDate * msPerDay),
   status,
   attendanceRecord.bind Attendance.notes⟩

/-- `allEmployeeAttendanceData` (attendance page lines 138–165) as a function
of the employee directory, the selected date's attendance records, all leave
requests, and the selected date. -/
def allEmployeeAttendanceData (employees : List User)
    (dateAttendance : List Attendance) (allLeaveRequests : List LeaveRequest)
    (selectedDate : Nat) : List AttendanceRow :=
  employees.map (employeeAttendanceRow dateAttendance allLeaveRequests selectedDate)

/-- The `baseDate` fallback chain of `onSubmit` (attendance page lines
196–197 and 206–207): the record's date, else its check-in time, else now. -/
def attendanceBaseDate (editingRecord : Attendance) (now : Nat) : Nat :=
  match editingRecord.date with
  | some d => d
  | none =>
    match editingRecord.checkInTime with
    | some c => c
    | none => now

/-- JavaScript `Date.setHours(hours, minutes, 0, 0)` on a timestamp: keep the
day, replace the time of day. -/
def setHoursMs (base hours minutes : Nat) : Nat :=
  (base / msPerDay) * msPerDay + hours * 3600000 + minutes * 60000

/-- The partial-update body sent by `updateAttendanceMutation`. -/
structure AttendanceUpdatePayload where
  checkInTime : Option Nat
  checkOutTime : Option Nat
deriving Repr, DecidableEq

/-- `onSubmit` of the attendance edit form (attendance page lines 188–217).
A form field holding the string "HH:mm" is modelled as `some (hours, minutes)`;
the empty string (falsy, hence skipped by the code) is `none`. -/
def onSubmit (now : Nat) (editingRecord : Attendance)
    (checkInField checkOutField : Option (Nat × Nat)) : AttendanceUpdatePayload :=
  ⟨checkInField.map
     (fun hm => setHoursMs (attendanceBaseDate editingRecord now) hm.1 hm.2),
   checkOutField.map
     (fun hm => setHoursMs (attendanceBaseDate editingRecord now) hm.1 hm.2)⟩

/-!  Specification-side definitions, formulated from the specification's
wording independently of the code, for the refinement theorems below. -/

/-- Specification-side count of weekdays (Monday–Friday, i.e. day-of-week
between 1 and 5) in the inclusive range `[s, e]`. -/
def specWeekdayCount (s e : Nat) : Nat :=
  ((List.range (e + 1 - s)).map (fun i => s + i)).countP
    (fun day => decide (1 ≤ (day + 4) % 7 ∧ (day + 4) % 7 ≤ 5))

/-- Specification-side used units for a full-day leave type: the sum, over
approved requests of that type, of the weekday count of their date range. -/
def specUsedWeekdays (requests : List LeaveRequest) (t : String) : Nat :=
  ((requests.filter fun r => r.status == "approved" && r.type == t).map
    (fun r => specWeekdayCount r.startDate r.endDate)).sum

/-- Specification-side fixed allowances: annual=20, sick=10, personal=5,
halfday=12, anything else 0. -/
def specAllowance (t : String) : Nat :=
  if t = "annual" then 20
  else if t = "sick" then 10
  else if t = "personal" then 5
  else if t = "halfday" then 12
  else 0

/-- Specification-side attendance status: `present` when an attendance record
for the employee exists and has a check-in time; else `on leave` when some
approved leave request of the employee satisfies the day-level containment
`startDate ≤ date ≤ endDate`; else `absent`. -/
def specStatus (dateAttendance : List Attendance)
    (allLeaveRequests : List LeaveRequest) (date : Nat) (employee : User) : String :=
  if ((dateAttendance.find? fun record => record.userId == employee.id).bind
      Attendance.checkInTime).isSome then "present"
  else if allLeaveRequests.any (fun r =>
      r.userId == employee.id && r.status == "approved" &&
        (decide (r.startDate ≤ date) && decide (date ≤ r.endDate))) then "on leave"
  else "absent"

/-- `needle` occurs as a contiguous substring of `hay`. -/
def strContains (hay needle : String) : Bool :=
  (List.range (hay.data.length + 1)).any
    (fun i => needle.data.isPrefixOf (hay.data.drop i))

/-- Specification-side combination of a base timestamp's day with a time of
day: strip the time-of-day remainder, add the given hours and minutes. -/
def specCombineTime (base hours minutes : Nat) : Nat :=
  base - base % msPerDay + hours * 3600000 + minutes * 60000

/-!  Helper lemmas. -/

/-- Folding `+ businessDaysLength` over a list from an accumulator is the
accumulator plus the sum of the mapped list. -/
theorem foldl_add_eq_sum :
    ∀ (l : List LeaveRequest) (n : Nat),
      l.foldl (fun total r => total + businessDaysLength r.startDate r.endDate) n
        = n + (l.map fun r => businessDaysLength r.startDate r.endDate).sum
  | [], n => by simp
  | x :: xs, n => by
    simp only [List.foldl_cons, List.map_cons, List.sum_cons]
    rw [foldl_add_eq_sum xs]
    omega

/-- Folding `+ 1` over a list from an accumulator adds the list's length. -/
theorem foldl_one_eq_length {α : Type} :
    ∀ (l : List α) (n : Nat), l.foldl (fun a _ => a + 1) n = n + l.length
  | [], n => by simp
  | x :: xs, n => by
    simp only [List.foldl_cons, List.length_cons]
    rw [foldl_one_eq_length xs]
    omega

/-- The code's business-day count (filtering out `isWeekend`) agrees with the
specification's weekday count (day-of-week between 1 and 5). -/
theorem businessDaysLength_eq_specWeekdayCount (s e : Nat) :
    businessDaysLength s e = specWeekdayCount s e := by
  unfold businessDaysLength specWeekdayCount eachDayOfInterval
  rw [List.countP_eq_length_filter]
  congr 1
  apply List.filter_congr
  intro d _
  have h7 : (d + 4) % 7 < 7 := Nat.mod_lt _ (by omega)
  unfold isWeekend
  set k := (d + 4) % 7 with hk
  interval_cases k <;> rfl

/-- The fold computing `used` in `calculateLeaveBalance` equals the
specification-side sum of weekday counts whenever the type is not `halfday`. -/
theorem used_fold_eq_specUsedWeekdays (requests : List LeaveRequest) (t : String)
    (h : (t == "halfday") = false) :
    ((requests.filter fun r => r.status == "approved" && r.type == t).foldl
      (fun total r =>
        if t == "halfday" then total + 1
        else total + businessDaysLength r.startDate r.endDate) 0)
    = specUsedWeekdays requests t := by
  simp only [h, Bool.false_eq_true, if_false]
  rw [foldl_add_eq_sum]
  unfold specUsedWeekdays
  simp [businessDaysLength_eq_specWeekdayCount]

/-!  Claim theorems. -/

/-- C1: for every leave type among annual, sick and personal,
`calculateLeaveBalance` returns the fixed allowance (annual=20, sick=10,
personal=5) as `total`, the sum of the weekday counts (Monday–Friday,
inclusive range) of the approved matching requests as `used`, and
`remaining = total − used`; and for any type outside
{annual, sick, personal, halfday} it returns `{0, 0, 0}` regardless of the
requests present.  The hypothesis `hw` restricts the statement to requests
with well-formed date ranges: the source's `calculateLeaveBalance` reaches
`eachDayOfInterval` without the `end < start` guard that `calculateDuration`
has, and date-fns's behavior on a reversed interval is version-dependent
(v2 throws, v3+ iterates the reversed range), so nothing is asserted there. -/
theorem calculateLeaveBalance_fullday_spec (requests : List LeaveRequest)
    (t u : String) (ht : t = "annual" ∨ t = "sick" ∨ t = "personal")
    (hu : u ≠ "annual" ∧ u ≠ "sick" ∧ u ≠ "personal" ∧ u ≠ "halfday")
    (hw : ∀ r ∈ requests, r.startDate ≤ r.endDate) :
    calculateLeaveBalance requests t =
      ⟨specAllowance t, specUsedWeekdays requests t,
       (specAllowance t : Int) - (specUsedWeekdays requests t : Int)⟩ ∧
    calculateLeaveBalance requests u = ⟨0, 0, 0⟩ := by
  constructor
  · have key := used_fold_eq_specUsedWeekdays requests t
    rcases ht with h | h | h <;> subst h <;>
      simp only [calculateLeaveBalance, specAllowance] <;>
      rw [key (by decide)] <;> simp
  · obtain ⟨h1, h2, h3, h4⟩ := hu
    simp only [calculateLeaveBalance]
    rw [if_neg (by simp [h1]), if_neg (by simp [h2]), if_neg (by simp [h3]),
      if_neg (by simp [h4])]

/-- C1 witness: a single approved sick request covering Monday 2024-01-01
(day 19723) through Friday 2024-01-05 (day 19727) uses 5 of the 10 sick days,
and an unknown type yields `{0, 0, 0}`. -/
theorem calculateLeaveBalance_fullday_spec_witness :
    calculateLeaveBalance [⟨1, 2, "sick", 19723, 19727, "approved", none, none⟩]
        "sick" = ⟨10, 5, 5⟩ ∧
    calculateLeaveBalance [⟨1, 2, "sick", 19723, 19727, "approved", none, none⟩]
        "maternity" = ⟨0, 0, 0⟩ := by
  have h := calculateLeaveBalance_fullday_spec
    [⟨1, 2, "sick", 19723, 19727, "approved", none, none⟩] "sick" "maternity"
    (Or.inr (Or.inl rfl)) ⟨by decide, by decide, by decide, by decide⟩ (by decide)
  exact ⟨h.1.trans (by decide), h.2⟩

/-- C2: for type `halfday`, `calculateLeaveBalance` counts each approved
halfday request as exactly one used unit, independent of its date range, and
returns `remaining = 12 − count`. -/
theorem calculateLeaveBalance_halfday_spec (requests : List LeaveRequest) :
    calculateLeaveBalance requests "halfday" =
      ⟨12,
       (requests.filter fun r => r.status == "approved" && r.type == "halfday").length,
       (12 : Int) -
         ((requests.filter fun r =>
            r.status == "approved" && r.type == "halfday").length : Int)⟩ := by
  simp only [calculateLeaveBalance, String.reduceBEq, Bool.false_eq_true, if_false,
    if_true, beq_self_eq_true]
  rw [foldl_one_eq_length]
  simp

/-- C3: `calculateDuration` returns "0 days" when the end precedes the start,
and otherwise renders the weekday count n of the inclusive range as
"n working day" when n = 1 and "n working days" when n ≠ 1. -/
theorem calculateDuration_spec (s e : Nat) :
    calculateDuration s e =
      if e < s then "0 days"
      else toString (specWeekdayCount s e) ++ " working day" ++
        (if specWeekdayCount s e = 1 then "" else "s") := by
  unfold calculateDuration
  by_cases h : e < s
  · simp [h]
  · simp only [if_neg h, businessDaysLength_eq_specWeekdayCount]
    by_cases h1 : specWeekdayCount s e = 1
    · simp [h1]
    · simp [h1, bne_iff_ne]

/-- The millisecond comparison of the noon of day `d` against the interval
`[s·msPerDay, e·msPerDay + (msPerDay − 1)]` is day-level containment. -/
theorem noon_interval_iff (s e d : Nat) :
    (decide (s * msPerDay ≤ d * msPerDay + 43200000) &&
      decide (d * msPerDay + 43200000 ≤ e * msPerDay + (msPerDay - 1)))
    = (decide (s ≤ d) && decide (d ≤ e)) := by
  have h1 : decide (s * msPerDay ≤ d * msPerDay + 43200000) = decide (s ≤ d) :=
    decide_eq_decide.mpr (by simp only [msPerDay]; omega)
  have h2 : decide (d * msPerDay + 43200000 ≤ e * msPerDay + (msPerDay - 1))
      = decide (d ≤ e) :=
    decide_eq_decide.mpr (by simp only [msPerDay]; omega)
  rw [h1, h2]

/-- `isEmployeeOnLeave` agrees with the specification-side predicate: some
approved request of the employee contains the date at day level. -/
theorem isEmployeeOnLeave_eq_spec (reqs : List LeaveRequest) (eid d : Nat) :
    isEmployeeOnLeave reqs eid d =
      reqs.any (fun r => r.userId == eid && r.status == "approved" &&
        (decide (r.startDate ≤ d) && decide (d ≤ r.endDate))) := by
  unfold isEmployeeOnLeave
  congr 1
  funext r
  by_cases h1 : r.userId == eid
  · by_cases h2 : r.status == "approved"
    · simp only [bne, h1, h2, Bool.not_true, Bool.or_self, Bool.false_eq_true,
        if_false, Bool.true_and]
      exact noon_interval_iff r.startDate r.endDate d
    · simp [bne, h1, h2]
  · simp [bne, h1]

/-- C4: the per-employee daily status derived by `allEmployeeAttendanceData`
is `present` when an attendance record with a check-in exists (regardless of
any overlapping leave), else `on leave` when an approved leave request of the
employee contains the selected date, else `absent`. -/
theorem allEmployeeAttendanceData_status_spec (employees : List User)
    (att : List Attendance) (reqs : List LeaveRequest) (d : Nat) :
    (allEmployeeAttendanceData employees att reqs d).map AttendanceRow.status
      = employees.map (specStatus att reqs d) := by
  unfold allEmployeeAttendanceData
  rw [List.map_map]
  congr 1
  funext emp
  show (employeeAttendanceRow att reqs d emp).status = specStatus att reqs d emp
  unfold employeeAttendanceRow specStatus
  dsimp only
  rw [isEmployeeOnLeave_eq_spec]

/-- Each derived row's status is one of the three possible strings. -/
theorem row_status_trichotomy (att : List Attendance) (reqs : List LeaveRequest)
    (d : Nat) (emp : User) :
    (employeeAttendanceRow att reqs d emp).status = "present" ∨
    (employeeAttendanceRow att reqs d emp).status = "on leave" ∨
    (employeeAttendanceRow att reqs d emp).status = "absent" := by
  unfold employeeAttendanceRow
  dsimp only
  split
  · exact Or.inl rfl
  · split
    · exact Or.inr (Or.inl rfl)
    · exact Or.inr (Or.inr rfl)

/-- C10: every employee in the derived daily attendance view gets exactly one
of the three statuses, so the Present, Absent and On Leave counts (as computed
by the summary cards) sum to the number of employees. -/
theorem attendance_status_partition (employees : List User) (att : List Attendance)
    (reqs : List LeaveRequest) (d : Nat) :
    ((allEmployeeAttendanceData employees att reqs d).all fun row =>
        row.status == "present" || row.status == "on leave" ||
          row.status == "absent") = true ∧
    ((allEmployeeAttendanceData employees att reqs d).filter fun row =>
        row.status == "present").length +
      ((allEmployeeAttendanceData employees att reqs d).filter fun row =>
        row.status == "absent").length +
      ((allEmployeeAttendanceData employees att reqs d).filter fun row =>
        row.status == "on leave").length
      = employees.length := by
  unfold allEmployeeAttendanceData
  induction employees with
  | nil => simp
  | cons emp rest ih =>
    obtain ⟨ih1, ih2⟩ := ih
    refine ⟨?_, ?_⟩
    · rcases row_status_trichotomy att reqs d emp with h | h | h <;>
        simp [List.all_cons, h, ih1]
    · rcases row_status_trichotomy att reqs d emp with h | h | h <;>
        simp only [List.map_cons, List.filter_cons, h, List.length_cons] <;>
        simp <;> omega

/-- C5: the approve operation issues a `PUT` on the request setting status to
`approved` and `approvedById` to the invoking user's id; the reject operation
symmetrically sets status to `rejected` with the same `approvedById`. -/
theorem approve_reject_mutation_spec (u : User) (requestId : Nat) :
    approveMutationFn (some u) requestId =
      .putLeaveRequest ("/api/leave-requests/" ++ toString requestId)
        ⟨"approved", some u.id⟩ ∧
    rejectMutationFn (some u) requestId =
      .putLeaveRequest ("/api/leave-requests/" ++ toString requestId)
        ⟨"rejected", some u.id⟩ :=
  ⟨rfl, rfl⟩

/-- C6: the actions cell of the user's own requests renders the edit and
cancel controls exactly when the request is pending — the cancel control's
confirmed action being a hard `DELETE` of the request — and renders nothing
for a non-pending request. -/
theorem myLeaveActionsCell_spec (r₁ r₂ : LeaveRequest)
    (h₁ : r₁.status = "pending") (h₂ : r₂.status ≠ "pending") :
    myLeaveActionsCell r₁ =
      [.editButton,
       .cancelButton (.deleteLeaveRequest ("/api/leave-requests/" ++ toString r₁.id))] ∧
    myLeaveActionsCell r₂ = [] := by
  constructor
  · simp [myLeaveActionsCell, h₁, cancelMutationFn]
  · simp [myLeaveActionsCell, h₂]

/-- C6 witness: a concrete pending request shows both controls with the
delete action, and a concrete approved request shows none. -/
theorem myLeaveActionsCell_spec_witness :
    myLeaveActionsCell ⟨7, 2, "annual", 100, 104, "pending", none, none⟩ =
      [.editButton,
       .cancelButton (.deleteLeaveRequest "/api/leave-requests/7")] ∧
    myLeaveActionsCell ⟨8, 2, "annual", 100, 104, "approved", none, none⟩ = [] := by
  have h := myLeaveActionsCell_spec
    ⟨7, 2, "annual", 100, 104, "pending", none, none⟩
    ⟨8, 2, "annual", 100, 104, "approved", none, none⟩ rfl (by decide)
  exact ⟨h.1.trans (by decide), h.2⟩

/-- C7: a user whose role is not admin, hr or manager is shown neither the
pending-approvals tab trigger nor the tab content holding the Approve/Reject
buttons. -/
theorem pendingApprovals_role_gate (u : User)
    (h : u.role ≠ "admin" ∧ u.role ≠ "hr" ∧ u.role ≠ "manager") :
    showPendingApprovalsTrigger (some u) = false ∧
    showPendingApprovalsContent (some u) = false := by
  obtain ⟨h1, h2, h3⟩ := h
  constructor <;>
    simp [showPendingApprovalsTrigger, showPendingApprovalsContent, h1, h2, h3]

/-- C7 witness: a user with role `employee` sees neither the trigger nor the
content. -/
theorem pendingApprovals_role_gate_witness :
    showPendingApprovalsTrigger (some ⟨3, "Ada", "L", "employee"⟩) = false ∧
    showPendingApprovalsContent (some ⟨3, "Ada", "L", "employee"⟩) = false :=
  pendingApprovals_role_gate ⟨3, "Ada", "L", "employee"⟩
    ⟨by decide, by decide, by decide⟩

/-- C9: on submitting the attendance edit form, each of the check-in and
check-out fields appears in the update payload exactly when it was provided,
and its value combines the supplied hours and minutes with the day of the
edited record's date, falling back to the record's existing check-in time,
falling back to the current time. -/
theorem onSubmit_spec (now : Nat) (editingRecord : Attendance)
    (checkInField checkOutField : Option (Nat × Nat)) :
    (onSubmit now editingRecord checkInField checkOutField).checkInTime
      = checkInField.map (fun hm =>
          specCombineTime ((editingRecord.date <|> editingRecord.checkInTime).getD now)
            hm.1 hm.2) ∧
    (onSubmit now editingRecord checkInField checkOutField).checkOutTime
      = checkOutField.map (fun hm =>
          specCombineTime ((editingRecord.date <|> editingRecord.checkInTime).getD now)
            hm.1 hm.2) := by
  have hbase : attendanceBaseDate editingRecord now
      = (editingRecord.date <|> editingRecord.checkInTime).getD now := by
    unfold attendanceBaseDate
    cases editingRecord.date <;> cases editingRecord.checkInTime <;> rfl
  have hcomb : ∀ b h m, setHoursMs b h m = specCombineTime b h m := by
    intro b h m
    unfold setHoursMs specCombineTime msPerDay
    omega
  constructor <;>
    · unfold onSubmit
      dsimp only
      rw [hbase]
      cases checkInField <;> cases checkOutField <;> simp [hcomb]

/-- A string occurs inside any string obtained by prepending to it. -/
theorem strContains_append (pre m : String) : strContains (pre ++ m) m = true := by
  unfold strContains
  rw [List.any_eq_true]
  refine ⟨pre.data.length, ?_, ?_⟩
  · rw [List.mem_range, String.data_append, List.length_append]
    omega
  · rw [String.data_append, List.drop_left]
    exact List.isPrefixOf_iff_prefix.mpr (List.prefix_refl _)

/-- C8 counterexample: with underlying error message "boom", the attendance
update mutation's error handler surfaces only the fixed toast description
"Failed to update attendance record", which does not contain "boom" — so not
every mutation's error notification contains the underlying error message. -/
theorem updateAttendance_error_message_counterexample :
    (updateAttendanceOnError "boom").toasts.map Toast.description
      = ["Failed to update attendance record"] ∧
    strContains "Failed to update attendance record" "boom" = false :=
  ⟨rfl, by decide⟩

/-- C8 (amended): on failure, none of the four mutations invalidates any
query key or retries, and each surfaces a destructive error toast; the
approve, reject and cancel toasts contain the underlying error message, while
the attendance-update toast is the fixed string
"Failed to update attendance record" independent of the error. -/
theorem mutation_onError_spec (msg : String) :
    approveOnError msg =
      ⟨[], false,
       [⟨"Error", "Failed to approve request: " ++ msg, some "destructive"⟩]⟩ ∧
    strContains ("Failed to approve request: " ++ msg) msg = true ∧
    rejectOnError msg =
      ⟨[], false,
       [⟨"Error", "Failed to reject request: " ++ msg, some "destructive"⟩]⟩ ∧
    strContains ("Failed to reject request: " ++ msg) msg = true ∧
    cancelOnError msg =
      ⟨[], false,
       [⟨"Error", "Failed to cancel request: " ++ msg, some "destructive"⟩]⟩ ∧
    strContains ("Failed to cancel request: " ++ msg) msg = true ∧
    updateAttendanceOnError msg =
      ⟨[], false,
       [⟨"Error", "Failed to update attendance record", some "destructive"⟩]⟩ :=
  ⟨rfl, strContains_append _ _, rfl, strContains_append _ _, rfl,
   strContains_append _ _, rfl⟩

end HR
